import Mathlib

/-!
Verification development for the fraud-dashboard aggregation pipeline
(`fraud_dashboard.py`).  The Python program loads one table, normalizes it
(boolean coercion, numeric coercion, money scaling), computes overall KPIs,
a daily series, grouped fraud-rate tables, a decile bucketing of order
value, and a correlation ranking against the fraud flag.  This file embeds
those computations shallowly: dataframe columns become lists, missing cells
become `Option.none` (pandas `NaN`), missing columns become `Option.none`
at the column level, and float arithmetic is modelled exactly over `ℚ`
(IEEE rounding, overflow and underflow are not modelled; all inputs of
interest are well inside float range).
-/

namespace FraudDash

/-- A raw cell of the input table: absent (`NaN`/`None`), a string, or a
finite number.  Non-finite numeric cells do not occur in the inputs we
model. -/
inductive Cell where
  | na : Cell
  | str (s : String) : Cell
  | num (q : ℚ) : Cell
deriving DecidableEq, Repr

/-- Result of Python `float(s)`: a finite value, `nan`, `inf` or `-inf`. -/
inductive PyFloat where
  | fin (q : ℚ) : PyFloat
  | nan : PyFloat
  | inf : PyFloat
  | ninf : PyFloat
deriving DecidableEq, Repr

/-- Python truthiness of `float(s) != 0`: `nan != 0` and `inf != 0` are both
`True` in Python. -/
def PyFloat.isNonzero : PyFloat → Bool
  | .fin q => q ≠ 0
  | _ => true

/-- ASCII lower-casing of one character, as Python `str.lower` acts on the
ASCII range (the token sets of the program are ASCII). -/
def asciiLower (c : Char) : Char :=
  if 'A' ≤ c ∧ c ≤ 'Z' then Char.ofNat (c.toNat + 32) else c

/-- Python `str.lower` on ASCII text. -/
def pyLower (s : String) : String := ⟨s.data.map asciiLower⟩

/-- Whitespace stripped by Python `str.strip()` (ASCII whitespace). -/
def isPySpace (c : Char) : Bool :=
  c = ' ' ∨ c = '\t' ∨ c = '\n' ∨ c = '\r' ∨ c = '\x0b' ∨ c = '\x0c'

/-- Python `str.strip()`. -/
def pyStrip (s : String) : String :=
  ⟨((s.data.dropWhile isPySpace).reverse.dropWhile isPySpace).reverse⟩

/-- Numeric value of a list of decimal digit characters. -/
def digitsToNat (ds : List Char) : ℕ :=
  ds.foldl (fun a c => 10 * a + (c.toNat - 48)) 0

/-- Helper for `pyFloatOfString`: parse an optional sign, returning the sign
as `1` or `-1` and the remaining characters. -/
def parseSign : List Char → ℤ × List Char
  | '+' :: r => (1, r)
  | '-' :: r => (-1, r)
  | r => (1, r)

/-- Model of Python `float(s)` on an already stripped, lower-cased string:
an optional sign, then `inf`/`infinity`/`nan` or a decimal literal
(`digits`, `digits.digits`, `.digits`, optional `e`-exponent), the whole
string consumed.  Digit-group underscores and non-ASCII digits are not
modelled.  The finite value is exact over `ℚ`. -/
def pyFloatOfString (s : String) : Option PyFloat :=
  let (sg, cs) := parseSign s.data
  if cs = "inf".data ∨ cs = "infinity".data then
    some (if sg = 1 then .inf else .ninf)
  else if cs = "nan".data then
    some .nan
  else
    let intPart := cs.takeWhile Char.isDigit
    let r1 := cs.dropWhile Char.isDigit
    let fracPart := if r1.head? = some '.' then r1.tail.takeWhile Char.isDigit else []
    let r2 := if r1.head? = some '.' then r1.tail.dropWhile Char.isDigit else r1
    if intPart = [] ∧ fracPart = [] then none
    else
      let mant : ℚ := (digitsToNat intPart : ℚ) +
        (digitsToNat fracPart : ℚ) / 10 ^ fracPart.length
      match r2 with
      | [] => some (.fin (sg * mant))
      | 'e' :: r3 =>
          let (esg, r4) := parseSign r3
          let eDigits := r4.takeWhile Char.isDigit
          if eDigits = [] ∨ r4.dropWhile Char.isDigit ≠ [] then none
          else some (.fin ((sg * mant) * (10 : ℚ) ^ (esg * (digitsToNat eDigits : ℤ))))
      | _ => none

/-- The truthy token set of `to_bool_int`. -/
def truthyTokens : List String := ["1", "true", "t", "yes", "y"]

/-- The falsey token set of `to_bool_int`. -/
def falseyTokens : List String := ["0", "false", "f", "no", "n"]

/-- The inner `_map` of `to_bool_int` (source lines 57–68): absent → 0;
otherwise `str(x).strip().lower()` is matched against the token sets, and
failing that parsed with `float`, nonzero → 1, zero or unparseable → 0.
For a finite numeric cell, `str(x)` round-trips through `float`, so the
net effect is `1` iff the value is nonzero. -/
def to_bool_int_map : Cell → ℤ
  | .na => 0
  | .num q => if q ≠ 0 then 1 else 0
  | .str s =>
      let t := pyLower (pyStrip s)
      if t ∈ truthyTokens then 1
      else if t ∈ falseyTokens then 0
      else
        match pyFloatOfString t with
        | some v => if v.isNonzero then 1 else 0
        | none => 0

/-- `to_bool_int` (source lines 55–69) applied to a whole column. -/
def to_bool_int (l : List Cell) : List ℤ := l.map to_bool_int_map

/-- `safe_div` (source lines 71–75): `float(n)/float(d) if d else 0.0`. -/
def safe_div (n d : ℚ) : ℚ := if d = 0 then 0 else n / d

/-- Mean of a column with no absent values (`Series.mean`): `NaN` (here
`none`) exactly when the column is empty. -/
def meanAll (l : List ℚ) : Option ℚ :=
  if l.isEmpty then none else some (l.sum / l.length)

/-- Mean of a column with absent values (`Series.mean`, `skipna=True`
default): absent entries are dropped, `NaN` when no value is present. -/
def meanOpt (l : List (Option ℚ)) : Option ℚ :=
  let p := l.reduceOption
  if p.isEmpty then none else some (p.sum / p.length)

/-- Distinct values of a list in order of first occurrence (the group keys
of a `groupby`; pandas additionally sorts the keys, which none of the
verified properties depend on). -/
def keysOf {α : Type} [DecidableEq α] (l : List α) : List α :=
  l.foldl (fun acc k => if k ∈ acc then acc else acc ++ [k]) []

/-- `groupby(key)[flag].mean()`: one row per distinct key, carrying the mean
of the flag values over the rows with that key. -/
def groupMean {α : Type} [DecidableEq α] (rows : List (α × ℤ)) : List (α × ℚ) :=
  (keysOf (rows.map Prod.fst)).map (fun k =>
    let sel := rows.filter (fun p => p.1 = k)
    (k, ((sel.map Prod.snd).sum : ℚ) / sel.length))

/-- The loaded table after timestamp parsing (source lines 229–233).  A
column-level `none` means the column is absent from the input file; a
cell-level `none` is `NaN`/`NaT`.  `date` is the derived calendar date
`DATE` (days as integers; `NaT` → `none`).  Identifier, money, cost, score
and velocity columns are kept as numbers after `pd.to_numeric(...,
errors="coerce")`, which this embedding takes as given: unparseable cells
are already `none`.  The two boolean-like columns are kept raw, since
`to_bool_int` inspects the raw cells. -/
structure Table where
  n : ℕ
  date : List (Option ℤ)
  delivery_id : Option (List (Option ℚ))
  gov : Option (List (Option ℚ))
  chargeback_cost : Option (List (Option ℚ))
  sift : Option (List (Option ℚ))
  platform : Option (List (Option String))
  cx_unique_addresses : Option (List (Option ℚ))
  fail_charges_1d : Option (List (Option ℚ))
  received_chargeback : Option (List Cell)
  is_fraudulent_chargeback : Option (List Cell)

/-- Column-length well-formedness: every present column has one cell per
row. -/
def optColLen {α : Type} (o : Option (List α)) (n : ℕ) : Bool :=
  match o with
  | none => true
  | some l => l.length = n

/-- A well-formed table: all columns have length `n`. -/
def Table.wfb (t : Table) : Bool :=
  t.date.length = t.n && optColLen t.delivery_id t.n && optColLen t.gov t.n &&
  optColLen t.chargeback_cost t.n && optColLen t.sift t.n &&
  optColLen t.platform t.n && optColLen t.cx_unique_addresses t.n &&
  optColLen t.fail_charges_1d t.n && optColLen t.received_chargeback t.n &&
  optColLen t.is_fraudulent_chargeback t.n

/-- Source line 256: `to_bool_int(df["RECEIVED_CHARGEBACK"])` when the
column exists, otherwise the scalar `0` broadcast over the rows. -/
def Table.RECEIVED_CHARGEBACK (t : Table) : List ℤ :=
  match t.received_chargeback with
  | some cs => to_bool_int cs
  | none => List.replicate t.n 0

/-- Source lines 257–258: `FRAUD_FLAG` is the coerced
`IS_FRAUDULENT_CHARGEBACK` column (the `astype(int)` is the identity
here), or broadcast `0` when the column is absent. -/
def Table.FRAUD_FLAG (t : Table) : List ℤ :=
  match t.is_fraudulent_chargeback with
  | some cs => to_bool_int cs
  | none => List.replicate t.n 0

/-- Source lines 261–265: `GOV` is zero-filled (`fillna(0)`) and divided by
100; when the `GOV` column is absent, `GOV_DOLLARS` is the scalar `0.0`
broadcast over the rows. -/
def Table.GOV_DOLLARS (t : Table) : List ℚ :=
  match t.gov with
  | some l => l.map (fun o => o.getD 0 / 100)
  | none => List.replicate t.n 0

/-- Source line 268: `df["DELIVERY_ID"].nunique()` (distinct non-null
values) when the column exists, else `len(df)`. -/
def Table.overall_deliveries (t : Table) : ℕ :=
  match t.delivery_id with
  | some l => (keysOf l.reduceOption).length
  | none => t.n

/-- Source line 269: total chargebacks. -/
def Table.overall_cb (t : Table) : ℤ := t.RECEIVED_CHARGEBACK.sum

/-- Source line 270: total fraudulent chargebacks. -/
def Table.overall_fraud (t : Table) : ℤ := t.FRAUD_FLAG.sum

/-- Source line 271. -/
def Table.overall_cb_rate (t : Table) : ℚ :=
  safe_div t.overall_cb t.overall_deliveries

/-- Source line 272. -/
def Table.overall_fraud_rate (t : Table) : ℚ :=
  safe_div t.overall_fraud t.overall_deliveries

/-- Source line 273: `df.get("CHARGEBACK_COST", pd.Series([0])).fillna(0)
.sum()` — zero-filled sum of the cost column, `0` when absent. -/
def Table.overall_cb_cost (t : Table) : ℚ :=
  match t.chargeback_cost with
  | some l => (l.map (fun o => o.getD 0)).sum
  | none => 0

/-- Source line 274: mean of `GOV_DOLLARS` over all rows (the column always
exists after preprocessing); `NaN` when the table is empty. -/
def Table.avg_gov (t : Table) : Option ℚ := meanAll t.GOV_DOLLARS

/-- Source line 275: `df.get("SIFT_CREATE_ORDER_PA_SCORE",
pd.Series([np.nan])).mean()` — skip-`NaN` mean, and `NaN` outright when
the column is absent. -/
def Table.avg_sift (t : Table) : Option ℚ :=
  match t.sift with
  | some l => meanOpt l
  | none => none

/-- One row of the `daily` aggregate (source lines 278–288). -/
structure DailyRow where
  date : Option ℤ
  deliveries : ℕ
  chargebacks : ℤ
  fraudulent : ℤ
  cb_cost : ℚ
  avg_sift : Option ℚ
  avg_gov : Option ℚ
  chargeback_rate : ℚ
  fraud_rate : ℚ
deriving DecidableEq, Repr

/-- The `daily` aggregate (source lines 278–288).  The named aggregation
references `DELIVERY_ID`, `CHARGEBACK_COST` and
`SIFT_CREATE_ORDER_PA_SCORE` unconditionally, so a missing one of those
columns raises `KeyError` at startup — modelled as `none`.  Otherwise one
row per distinct `DATE` value (`dropna=False` keeps the `NaT` group):
`count` counts non-null `DELIVERY_ID` cells, the flag sums are plain sums,
`sum` over costs skips `NaN` (zero-contribution), the means are skip-`NaN`
means, and the two rates divide by the delivery count with
`replace(0, nan)` followed by `fillna(0)` — i.e. rate `0` for a group
with delivery count `0`. -/
def Table.daily (t : Table) : Option (List DailyRow) :=
  match t.delivery_id, t.chargeback_cost, t.sift with
  | some dids, some costs, some sifts =>
      some ((keysOf t.date).map (fun d =>
        let idx := (List.range t.n).filter (fun i => t.date.getD i none = d)
        let deliveries := (idx.filter (fun i => (dids.getD i none).isSome)).length
        let cb := (idx.map (fun i => t.RECEIVED_CHARGEBACK.getD i 0)).sum
        let fr := (idx.map (fun i => t.FRAUD_FLAG.getD i 0)).sum
        { date := d
          deliveries := deliveries
          chargebacks := cb
          fraudulent := fr
          cb_cost := (idx.map (fun i => (costs.getD i none).getD 0)).sum
          avg_sift := meanOpt (idx.map (fun i => sifts.getD i none))
          avg_gov := meanAll (idx.map (fun i => t.GOV_DOLLARS.getD i 0))
          chargeback_rate := if deliveries = 0 then 0 else (cb : ℚ) / deliveries
          fraud_rate := if deliveries = 0 then 0 else (fr : ℚ) / deliveries }))
  | _, _, _ => none

/-- Source lines 299–305: fraud rate grouped by `PLATFORM` (`dropna=False`,
so a `NaN` platform is its own group, modelled by the `none` key); an
absent column yields the empty table.  The `sort_values` reorderings on
the sibling tables permute rows only and are omitted. -/
def Table.fraud_by_platform (t : Table) : List (Option String × ℚ) :=
  match t.platform with
  | some ps => groupMean (ps.zip t.FRAUD_FLAG)
  | none => []

/-- Source lines 307–313: fraud rate grouped by `CX_UNIQUE_ADDRESSES`. -/
def Table.fraud_by_addr (t : Table) : List (Option ℚ × ℚ) :=
  match t.cx_unique_addresses with
  | some as_ => groupMean (as_.zip t.FRAUD_FLAG)
  | none => []

/-- Source lines 315–321: fraud rate grouped by `FAIL_CHARGES_1D`. -/
def Table.fraud_by_failed (t : Table) : List (Option ℚ × ℚ) :=
  match t.fail_charges_1d with
  | some fs => groupMean (fs.zip t.FRAUD_FLAG)
  | none => []

/-- Linear-interpolation quantile of an already sorted nonempty list, as
`Series.quantile` computes it: position `p·(n−1)`, interpolating between
the neighbouring order statistics. -/
def quantileSorted (s : List ℚ) (p : ℚ) : ℚ :=
  let pos : ℚ := p * ((s.length : ℚ) - 1)
  let lo := ⌊pos⌋
  let xlo := s.getD lo.toNat 0
  let xhi := s.getD ⌈pos⌉.toNat 0
  xlo + (pos - lo) * (xhi - xlo)

/-- Core of pandas `_bins_to_cuts` on a precomputed edge list: when edges
repeat they are either an error (`duplicates="raise"`) or deduplicated
(`duplicates="drop"`, `dropDup = true`); each value is then placed by
binary search (`side="left"`, modelled as the count of edges below the
value, the edges being sorted), values equal to the lowest edge are
assigned to the first interval (`include_lowest=True`), and out-of-range
positions — including every position when only one edge survives —
become `NaN` (`none`).  A bucket is identified by its raw pair of edges;
the label formatting (left-edge nudge of the first interval, precision)
is presentation-only and injective on these intervals. -/
def binsToCuts (x : List ℚ) (edges : List ℚ) (dropDup : Bool) :
    Except String (List (Option (ℚ × ℚ))) :=
  let uniq := keysOf edges
  if uniq.length < edges.length ∧ ¬dropDup then
    .error "Bin edges must be unique"
  else
    let bins := if uniq.length < edges.length ∧ edges.length ≠ 2 then uniq else edges
    .ok (x.map (fun v =>
      let i := if v = bins.getD 0 0 then 1 else (bins.filter (fun e => e < v)).length
      if i = 0 ∨ i = bins.length then none
      else some (bins.getD (i - 1) 0, bins.getD i 0)))

/-- `pd.qcut(x, q=10, duplicates="drop")` (source line 325): the eleven
decile edges of the data, then `binsToCuts`.  On an empty column the
result is empty. -/
def qcutDeciles (x : List ℚ) (dropDup : Bool) :
    Except String (List (Option (ℚ × ℚ))) :=
  if x.isEmpty then .ok [] else
    let s := List.insertionSort (· ≤ ·) x
    binsToCuts x ((List.range 11).map (fun k => quantileSorted s ((k : ℚ) / 10))) dropDup

/-- Source lines 325–326: the per-row decile bucket of `GOV_DOLLARS` (the
`fillna(0)` there is a no-op since `GOV_DOLLARS` is already zero-filled).
`GOV_BIN_LABEL = astype(str)` maps the `NaN` bucket to the string
`"nan"` and each interval to its distinct rendering, so grouping by the
label is grouping by the `Option`-valued bucket. -/
def Table.GOV_BIN (t : Table) : List (Option (ℚ × ℚ)) :=
  match qcutDeciles t.GOV_DOLLARS true with
  | .ok l => l
  | .error _ => []

/-- Source lines 327–330: fraud rate grouped by the decile bucket label. -/
def Table.fraud_by_gov_bin (t : Table) : List (Option (ℚ × ℚ) × ℚ) :=
  groupMean (t.GOV_BIN.zip t.FRAUD_FLAG)

/-- The last-7-day window of `last_vs_prior_7d` (source line 348): entries
whose date is strictly within 7 days of the maximum observed date.  A
`NaT` date compares false, so such entries fall in no window; `maxDate`
is `none` when no date is present, and then both windows are empty. -/
def lastWindow (s : List (Option ℤ × ℚ)) : List (Option ℤ × ℚ) :=
  match (s.map Prod.fst).reduceOption.max? with
  | none => []
  | some m => s.filter (fun p => match p.1 with
      | some d => m - 7 < d
      | none => false)

/-- The prior-7-day window of `last_vs_prior_7d` (source line 349). -/
def priorWindow (s : List (Option ℤ × ℚ)) : List (Option ℤ × ℚ) :=
  match (s.map Prod.fst).reduceOption.max? with
  | none => []
  | some m => s.filter (fun p => match p.1 with
      | some d => m - 14 < d ∧ d ≤ m - 7
      | none => false)

/-- `last_vs_prior_7d` (source lines 344–351): `None` when the series is
empty or either window is empty, else the two window means and their
signed difference.  The `sort_index()` of the source only reorders the
series and does not change window membership or means. -/
def last_vs_prior_7d (s : List (Option ℤ × ℚ)) : Option (ℚ × ℚ × ℚ) :=
  if s.isEmpty then none
  else
    let l7 := lastWindow s
    let p7 := priorWindow s
    if l7.length = 0 ∨ p7.length = 0 then none
    else
      let ml := (l7.map Prod.snd).sum / l7.length
      let mp := (p7.map Prod.snd).sum / p7.length
      some (ml, mp, ml - mp)

/-- The daily series handed to `last_vs_prior_7d` at source lines 354–355:
date and chargeback rate of each daily row. -/
def dailyCbSeries (rows : List DailyRow) : List (Option ℤ × ℚ) :=
  rows.map (fun r => (r.date, r.chargeback_rate))

/-- The numeric part of the preprocessed frame as seen by
`select_dtypes(include=[np.number])` at source line 747: the numeric
columns in dataframe order, cells `none` for `NaN`.  After preprocessing
this always contains `RECEIVED_CHARGEBACK`, `IS_FRAUDULENT_CHARGEBACK`
and `FRAUD_FLAG`. -/
abbrev NumTable : Type := List (String × List (Option ℚ))

/-- First column of the given name (dataframe column selection `df[name]`);
the empty column when the name is absent. -/
def getCol : NumTable → String → List (Option ℚ)
  | [], _ => []
  | c :: rest, name => if c.1 = name then c.2 else getCol rest name

/-- Rows of a pairwise-complete correlation: the positions where both
columns have a value (pandas `corr` uses pairwise-complete
observations). -/
def completePairs (xs ys : List (Option ℚ)) : List (ℚ × ℚ) :=
  (xs.zip ys).filterMap (fun p => p.1.bind (fun a => p.2.map (fun b => (a, b))))

/-- `n·Σxy − Σx·Σy` over complete pairs: the centered cross-sum scaled by
`n`, whose scale cancels in the correlation quotient. -/
def crossSum (ps : List (ℚ × ℚ)) : ℚ :=
  (ps.length : ℚ) * (ps.map (fun p => p.1 * p.2)).sum
    - (ps.map Prod.fst).sum * (ps.map Prod.snd).sum

/-- Exact representation of a Pearson correlation value as the triple
`(Sxy, Sxx, Syy)` of `n`-scaled centered sums over the complete pairs.
The float the program computes is `Sxy / √(Sxx·Syy)` when
`Sxx > 0 ∧ Syy > 0`, and `NaN` otherwise (constant column, fewer than
two pairs, or no pairs).  Floats cannot carry the generally irrational
value itself; every comparison the program performs on correlations is
decided exactly on this representation. -/
abbrev CorrVal : Type := ℚ × ℚ × ℚ

/-- Whether the represented correlation is pandas `NaN` (a degenerate
variance term). -/
def corrIsNaN (a : CorrVal) : Prop := ¬(0 < a.2.1 ∧ 0 < a.2.2)

instance (a : CorrVal) : Decidable (corrIsNaN a) := by
  unfold corrIsNaN; infer_instance

/-- The squared denominator `Sxx·Syy` of a represented correlation. -/
def corrM (a : CorrVal) : ℚ := a.2.1 * a.2.2

/-- Pearson correlation of two columns with `NaN` cells, in the `CorrVal`
representation (pandas `corr` uses pairwise-complete observations). -/
def pearsonRep (xs ys : List (Option ℚ)) : CorrVal :=
  let ps := completePairs xs ys
  (crossSum ps,
   crossSum (ps.map (fun p => (p.1, p.1))),
   crossSum (ps.map (fun p => (p.2, p.2))))

/-- Exact order on represented correlations, with `NaN` greatest (pandas
`sort_values` ascending places `NaN` last): for valid values,
`s₁/√m₁ ≤ s₂/√m₂` is decided by sign analysis and cross-multiplied
squares, sound because the `m`s are positive there. -/
def corrLe (a b : CorrVal) : Bool :=
  if corrIsNaN b then true
  else if corrIsNaN a then false
  else if a.1 ≤ 0 ∧ 0 ≤ b.1 then true
  else if 0 ≤ a.1 ∧ 0 ≤ b.1 then a.1 ^ 2 * corrM b ≤ b.1 ^ 2 * corrM a
  else if a.1 ≤ 0 ∧ b.1 ≤ 0 then b.1 ^ 2 * corrM a ≤ a.1 ^ 2 * corrM b
  else false

/-- Strict comparison of the magnitudes of two valid represented
correlations, `|s₁/√m₁| < |s₂/√m₂|`. -/
def absCorrLt (a b : CorrVal) : Bool :=
  a.1 ^ 2 * corrM b < b.1 ^ 2 * corrM a

/-- Source lines 747–756: the correlation series
`numeric.corr()["FRAUD_FLAG"]` — every numeric column paired with its
Pearson correlation against the fraud flag, in dataframe column order.
(The `assign(FRAUD_FLAG=...)` of the source rewrites that column with the
values it already has in the preprocessed frame.) -/
def corrSeries (tbl : NumTable) : List (String × CorrVal) :=
  tbl.map (fun c => (c.1, pearsonRep c.2 (getCol tbl "FRAUD_FLAG")))

/-- Source line 750: `.drop(labels=["FRAUD_FLAG","IS_FRAUDULENT_CHARGEBACK"],
errors="ignore")` — remove exactly those two index labels. -/
def dropLabelRows (s : List (String × CorrVal)) : List (String × CorrVal) :=
  s.filter (fun p => p.1 ≠ "FRAUD_FLAG" ∧ p.1 ≠ "IS_FRAUDULENT_CHARGEBACK")

/-- Source line 742: `.head(20)` — the first 20 rows in index order. -/
def predictorRows (tbl : NumTable) : List (String × CorrVal) :=
  (dropLabelRows (corrSeries tbl)).take 20

/-- Row order used by `.sort_values("CorrelationWithFraud")`: compare the
correlation values. -/
def entryLe (a b : String × CorrVal) : Prop := corrLe a.2 b.2 = true

instance : DecidableRel entryLe := fun a b => by unfold entryLe; infer_instance

/-- Source line 742: `.sort_values("CorrelationWithFraud")` — ascending by
the correlation value, `NaN` last.  pandas' default quicksort leaves the
relative order of exactly equal values unspecified; the embedding uses a
sort and the theorems assert only the order properties
(permutation and sortedness), which hold for any correct sort. -/
def predictorDisplay (tbl : NumTable) : List (String × CorrVal) :=
  List.insertionSort entryLe (predictorRows tbl)

/-- The glossary fields (source lines 442–468), a static catalog. -/
def glossaryFields : List String :=
  ["DELIVERY_ID", "CREATED_AT", "CONSUMER_ID", "GOV",
   "CX_AGE_ON_DELIVERY_BASED_ON_FIRST_ORDER", "PLATFORM",
   "RECEIVED_CHARGEBACK", "IS_FRAUDULENT_CHARGEBACK", "CHARGEBACK_COST",
   "CX_DEVICE_ORDER_NUM", "CX_ADDRESS_ORDER_NUM", "CX_CARD_ORDER_NUM",
   "CX_ORDER_NUM", "CX_UNIQUE_ADDRESSES", "UNIQUE_ADDRESS_PAST_1DAY",
   "UNIQUE_ADDRESS_PAST_7DAY", "SIFT_CREATE_ORDER_PA_SCORE",
   "FAIL_CHARGES_1HR", "FAIL_CHARGES_1D", "FAIL_CHARGES_7D",
   "DEVICE_DELIVERIES", "DEVICE_PCT_CHARGEBACK", "CCR_PAST_DELIVERIES",
   "CCR_CHARGEBACK_DELIVERIES", "CX_PCT_CHARGEBACK"]

/-- The recommendation catalog keys (source lines 473–565), a static
catalog independent of the loaded data. -/
def recCatalogKeys : List String :=
  ["temporal", "failed_payments", "address_velocity", "device", "sift",
   "gov", "platform"]

/-- Modelled from the spec: the average-order-value statistic as §3/§4.1 of
the spec describe it — missing or unparseable order values excluded from
the mean, present values converted from minor to major units.  Compared
against the program's `avg_gov`. -/
def specGovMeanPresent (t : Table) : Option ℚ :=
  match t.gov with
  | some l => meanOpt (l.map (Option.map (fun q => q / 100)))
  | none => none

/-- Concrete numeric frame with four rows for exercising the correlation
ranking: failed-charge counts, the chargeback flag, the fraud label and
the fraud flag. -/
def c1Tbl : NumTable :=
  [("FAIL_CHARGES_1D", [some 2, some 1, some 0, some 1]),
   ("RECEIVED_CHARGEBACK", [some 1, some 1, some 0, some 0]),
   ("IS_FRAUDULENT_CHARGEBACK", [some 1, some 0, some 0, some 0]),
   ("FRAUD_FLAG", [some 1, some 0, some 0, some 0])]

/-- A daily series of eight consecutive dates (day `d` carries value `d`):
eight days of history, so the prior-7-day window holds a single day. -/
def c2Series : List (Option ℤ × ℚ) :=
  [(some 0, 0), (some 1, 1), (some 2, 2), (some 3, 3),
   (some 4, 4), (some 5, 5), (some 6, 6), (some 7, 7)]

/-- Two-row table whose order value is present on the first row (100 minor
units) and missing on the second. -/
def c3Tbl : Table where
  n := 2
  date := [some 0, some 0]
  delivery_id := some [some 1, some 2]
  gov := some [some 100, none]
  chargeback_cost := some [some 0, some 0]
  sift := some [none, none]
  platform := none
  cx_unique_addresses := none
  fail_charges_1d := none
  received_chargeback := some [.num 0, .num 0]
  is_fraudulent_chargeback := some [.num 0, .num 0]

/-- One-row table whose delivery identifier is `NaN`, so its single date
group counts zero deliveries while holding one chargeback. -/
def c4Tbl : Table where
  n := 1
  date := [some 0]
  delivery_id := some [none]
  gov := some [some 100]
  chargeback_cost := some [some 5]
  sift := some [none]
  platform := none
  cx_unique_addresses := none
  fail_charges_1d := none
  received_chargeback := some [.num 1]
  is_fraudulent_chargeback := some [.num 1]

/-- One-row table with every column present except `CHARGEBACK_COST`. -/
def c5Tbl : Table where
  n := 1
  date := [some 0]
  delivery_id := some [some 1]
  gov := some [some 100]
  chargeback_cost := none
  sift := some [some 1]
  platform := some [some "iOS"]
  cx_unique_addresses := some [some 1]
  fail_charges_1d := some [some 0]
  received_chargeback := some [.num 0]
  is_fraudulent_chargeback := some [.num 0]

/-- A table with zero records: every column exists but is empty. -/
def emptyTable : Table where
  n := 0
  date := []
  delivery_id := some []
  gov := some []
  chargeback_cost := some []
  sift := some []
  platform := some []
  cx_unique_addresses := some []
  fail_charges_1d := some []
  received_chargeback := some []
  is_fraudulent_chargeback := some []

/-- Three-row table with a constant order value (500 minor units on every
row). -/
def c8Tbl : Table where
  n := 3
  date := [some 0, some 0, some 0]
  delivery_id := some [some 1, some 2, some 3]
  gov := some [some 500, some 500, some 500]
  chargeback_cost := some [some 0, some 0, some 0]
  sift := some [none, none, none]
  platform := none
  cx_unique_addresses := none
  fail_charges_1d := none
  received_chargeback := some [.num 1, .num 0, .num 0]
  is_fraudulent_chargeback := some [.num 1, .num 0, .num 0]

/-- Two-row table with two platforms, one fraudulent row. -/
def c9Tbl : Table where
  n := 2
  date := [some 0, some 1]
  delivery_id := some [some 1, some 2]
  gov := some [some 100, some 200]
  chargeback_cost := some [some 0, some 0]
  sift := some [some 1, some 2]
  platform := some [some "iOS", some "Web"]
  cx_unique_addresses := some [some 1, some 1]
  fail_charges_1d := some [some 0, some 2]
  received_chargeback := some [.num 1, .num 0]
  is_fraudulent_chargeback := some [.num 1, .num 0]

theorem corrM_pos {a : CorrVal} (h : ¬ corrIsNaN a) : 0 < corrM a := by
  unfold corrIsNaN at h
  rw [not_not] at h
  exact mul_pos h.1 h.2

theorem corrLe_eq_true (a b : CorrVal) (ha : ¬ corrIsNaN a) (hb : ¬ corrIsNaN b) :
    corrLe a b = true ↔
      (a.1 ≤ 0 ∧ 0 ≤ b.1) ∨ (0 ≤ a.1 ∧ 0 ≤ b.1 ∧ a.1 ^ 2 * corrM b ≤ b.1 ^ 2 * corrM a)
        ∨ (a.1 ≤ 0 ∧ b.1 ≤ 0 ∧ b.1 ^ 2 * corrM a ≤ a.1 ^ 2 * corrM b) := by
  unfold corrLe
  rw [if_neg hb, if_neg ha]
  split_ifs with h1 h2 h3
  · simp only [true_iff]
    exact Or.inl h1
  · simp only [decide_eq_true_eq]
    constructor
    · exact fun h => Or.inr (Or.inl ⟨h2.1, h2.2, h⟩)
    · rintro (h | ⟨_, _, h⟩ | ⟨h3, h4, h⟩)
      · exact absurd h h1
      · exact h
      · have hb1 : b.1 = 0 := le_antisymm h4 h2.2
        have ha1 : a.1 = 0 := le_antisymm h3 h2.1
        simp [ha1, hb1]
  · simp only [decide_eq_true_eq]
    constructor
    · exact fun h => Or.inr (Or.inr ⟨h3.1, h3.2, h⟩)
    · rintro (h | ⟨h4, h5, h⟩ | ⟨_, _, h⟩)
      · exact absurd h h1
      · have ha1 : a.1 = 0 := le_antisymm h3.1 h4
        have hb1 : b.1 = 0 := le_antisymm h3.2 h5
        simp [ha1, hb1]
      · exact h
  · simp only [false_iff]
    rintro (h | ⟨h4, h5, _⟩ | ⟨h4, h5, _⟩)
    · exact absurd h h1
    · exact absurd ⟨h4, h5⟩ h2
    · exact absurd ⟨h4, h5⟩ h3

theorem corrLe_of_nan (a : CorrVal) {b : CorrVal} (hb : corrIsNaN b) :
    corrLe a b = true := by
  unfold corrLe
  rw [if_pos hb]

theorem not_corrLe_nan_valid {a b : CorrVal} (ha : corrIsNaN a) (hb : ¬ corrIsNaN b) :
    corrLe a b = false := by
  unfold corrLe
  rw [if_neg hb, if_pos ha]

theorem corrLe_total (a b : CorrVal) : corrLe a b = true ∨ corrLe b a = true := by
  by_cases hb : corrIsNaN b
  · exact Or.inl (corrLe_of_nan a hb)
  · by_cases ha : corrIsNaN a
    · exact Or.inr (corrLe_of_nan b ha)
    · rw [corrLe_eq_true a b ha hb, corrLe_eq_true b a hb ha]
      rcases le_total a.1 0 with h1 | h1 <;> rcases le_total b.1 0 with h2 | h2
      · rcases le_total (b.1 ^ 2 * corrM a) (a.1 ^ 2 * corrM b) with h3 | h3
        · exact Or.inl (Or.inr (Or.inr ⟨h1, h2, h3⟩))
        · exact Or.inr (Or.inr (Or.inr ⟨h2, h1, h3⟩))
      · exact Or.inl (Or.inl ⟨h1, h2⟩)
      · exact Or.inr (Or.inl ⟨h2, h1⟩)
      · rcases le_total (a.1 ^ 2 * corrM b) (b.1 ^ 2 * corrM a) with h3 | h3
        · exact Or.inl (Or.inr (Or.inl ⟨h1, h2, h3⟩))
        · exact Or.inr (Or.inr (Or.inl ⟨h2, h1, h3⟩))

theorem corrLe_trans {a b c : CorrVal} (hab : corrLe a b = true)
    (hbc : corrLe b c = true) : corrLe a c = true := by
  by_cases hc : corrIsNaN c
  · exact corrLe_of_nan a hc
  · by_cases hb : corrIsNaN b
    · rw [not_corrLe_nan_valid hb hc] at hbc
      exact absurd hbc (by simp)
    · by_cases ha : corrIsNaN a
      · rw [not_corrLe_nan_valid ha hb] at hab
        exact absurd hab (by simp)
      · have hma := corrM_pos ha
        have hmb := corrM_pos hb
        have hmc := corrM_pos hc
        rw [corrLe_eq_true a b ha hb] at hab
        rw [corrLe_eq_true b c hb hc] at hbc
        rw [corrLe_eq_true a c ha hc]
        rcases hab with h | ⟨ha1, hb1, hq⟩ | ⟨ha1, hb1, hq⟩ <;>
          rcases hbc with h' | ⟨hb1', hc1, hq'⟩ | ⟨hb1', hc1, hq'⟩
        · exact Or.inl ⟨h.1, h'.2⟩
        · exact Or.inl ⟨h.1, hc1⟩
        · -- `b ≥ 0` from the first step, `b ≤ 0` from the third case
          have hb0 : b.1 = 0 := le_antisymm hb1' h.2
          rw [hb0] at hq'
          have hc0 : c.1 = 0 := by
            by_contra hne
            have hpos : 0 < c.1 ^ 2 := by positivity
            nlinarith
          exact Or.inl ⟨h.1, le_of_eq hc0.symm⟩
        · have hb0 : b.1 = 0 := le_antisymm h'.1 hb1
          rw [hb0] at hq
          have ha0 : a.1 = 0 := by
            by_contra hne
            have hpos : 0 < a.1 ^ 2 := by positivity
            nlinarith
          exact Or.inl ⟨le_of_eq ha0, h'.2⟩
        · refine Or.inr (Or.inl ⟨ha1, hc1, ?_⟩)
          nlinarith [mul_nonneg (mul_nonneg (sq_nonneg a.1) hma.le) hmb.le]
        · have hb0 : b.1 = 0 := le_antisymm hb1' hb1
          rw [hb0] at hq hq'
          have ha0 : a.1 = 0 := by
            by_contra hne
            have hpos : 0 < a.1 ^ 2 := by positivity
            nlinarith
          have hc0 : c.1 = 0 := by
            by_contra hne
            have hpos : 0 < c.1 ^ 2 := by positivity
            nlinarith
          exact Or.inl ⟨le_of_eq ha0, le_of_eq hc0.symm⟩
        · exact Or.inl ⟨ha1, h'.2⟩
        · exact Or.inl ⟨ha1, hc1⟩
        · refine Or.inr (Or.inr ⟨ha1, hc1, ?_⟩)
          nlinarith [mul_nonneg (mul_nonneg (sq_nonneg c.1) hmc.le) hmb.le]

instance : IsTotal (String × CorrVal) entryLe :=
  ⟨fun a b => corrLe_total a.2 b.2⟩

instance : IsTrans (String × CorrVal) entryLe :=
  ⟨fun _ _ _ hab hbc => corrLe_trans hab hbc⟩

theorem mem_keysOf_foldl {α : Type} [DecidableEq α] (l : List α) (acc : List α) (x : α) :
    (x ∈ l.foldl (fun acc k => if k ∈ acc then acc else acc ++ [k]) acc) ↔
      x ∈ acc ∨ x ∈ l := by
  induction l generalizing acc with
  | nil => simp
  | cons a l ih =>
    simp only [List.foldl_cons]
    by_cases h : a ∈ acc
    · rw [if_pos h, ih]
      constructor
      · rintro (h' | h')
        · exact Or.inl h'
        · exact Or.inr (List.mem_cons_of_mem a h')
      · rintro (h' | h')
        · exact Or.inl h'
        · rcases List.mem_cons.mp h' with rfl | h''
          · exact Or.inl h
          · exact Or.inr h''
    · rw [if_neg h, ih]
      simp only [List.mem_append, List.mem_singleton, List.mem_cons]
      tauto

theorem mem_keysOf {α : Type} [DecidableEq α] (l : List α) (x : α) :
    x ∈ keysOf l ↔ x ∈ l := by
  unfold keysOf
  rw [mem_keysOf_foldl]
  simp

theorem keysOf_foldl_nodup {α : Type} [DecidableEq α] (l : List α) (acc : List α)
    (h : acc.Nodup) :
    (l.foldl (fun acc k => if k ∈ acc then acc else acc ++ [k]) acc).Nodup := by
  induction l generalizing acc with
  | nil => exact h
  | cons a l ih =>
    simp only [List.foldl_cons]
    by_cases ha : a ∈ acc
    · rw [if_pos ha]
      exact ih acc h
    · rw [if_neg ha]
      refine ih _ ?_
      simp [List.nodup_append, h, ha]

theorem keysOf_nodup {α : Type} [DecidableEq α] (l : List α) : (keysOf l).Nodup :=
  keysOf_foldl_nodup l [] List.nodup_nil

theorem keysOf_length_le_of_map {α β : Type} [DecidableEq α] [DecidableEq β]
    (l : List α) (f : α → β) :
    (keysOf (l.map f)).length ≤ (keysOf l).length := by
  have h1 : (keysOf (l.map f)).toFinset = l.toFinset.image f := by
    ext x
    simp [mem_keysOf]
  have h2 : (keysOf l).toFinset = l.toFinset := by
    ext x
    simp [mem_keysOf]
  rw [← List.toFinset_card_of_nodup (keysOf_nodup (l.map f)),
    ← List.toFinset_card_of_nodup (keysOf_nodup l), h1, h2]
  exact Finset.card_image_le

theorem keysOf_const {α : Type} [DecidableEq α] (l : List α) (a : α) (hne : l ≠ [])
    (h : ∀ x ∈ l, x = a) : keysOf l = [a] := by
  have haux : ∀ (l' : List α), (∀ x ∈ l', x = a) →
      l'.foldl (fun acc k => if k ∈ acc then acc else acc ++ [k]) [a] = [a] := by
    intro l'
    induction l' with
    | nil => intro _; rfl
    | cons b l' ih =>
      intro hb
      have hba : b = a := hb b (List.mem_cons_self b l')
      simp only [List.foldl_cons, hba, List.mem_singleton, if_pos rfl]
      exact ih (fun x hx => hb x (List.mem_cons_of_mem b hx))
  cases l with
  | nil => exact absurd rfl hne
  | cons b l' =>
    have hba : b = a := h b (List.mem_cons_self b l')
    unfold keysOf
    simp only [List.foldl_cons, List.not_mem_nil, if_neg (List.not_mem_nil b),
      List.nil_append, hba]
    exact haux l' (fun x hx => h x (List.mem_cons_of_mem b hx))

theorem sum_of01 (l : List ℤ) (h : ∀ x ∈ l, x = 0 ∨ x = 1) :
    0 ≤ l.sum ∧ l.sum ≤ l.length := by
  induction l with
  | nil => simp
  | cons a l ih =>
    obtain ⟨h0, h1⟩ := ih (fun x hx => h x (List.mem_cons_of_mem a hx))
    rcases h a (List.mem_cons_self a l) with rfl | rfl <;>
      simp only [List.sum_cons, List.length_cons] <;> constructor <;> push_cast <;> omega

theorem groupMean_mem {α : Type} [DecidableEq α] (rows : List (α × ℤ))
    (hv : ∀ p ∈ rows, p.2 = 0 ∨ p.2 = 1) :
    ∀ q ∈ groupMean rows, (0 ≤ q.2 ∧ q.2 ≤ 1) ∧ q.1 ∈ rows.map Prod.fst := by
  intro q hq
  unfold groupMean at hq
  rw [List.mem_map] at hq
  obtain ⟨k, hk, rfl⟩ := hq
  have hkmem : k ∈ rows.map Prod.fst := (mem_keysOf _ _).mp hk
  refine ⟨?_, hkmem⟩
  obtain ⟨p, hp, hpk⟩ := List.mem_map.mp hkmem
  have hpsel : p ∈ rows.filter (fun p => p.1 = k) :=
    List.mem_filter.mpr ⟨hp, by simp [hpk]⟩
  have hlen : 0 < (rows.filter (fun p => p.1 = k)).length :=
    List.length_pos.mpr (List.ne_nil_of_mem hpsel)
  have hsel01 : ∀ x ∈ (rows.filter (fun p => p.1 = k)).map Prod.snd, x = 0 ∨ x = 1 := by
    intro x hx
    obtain ⟨p', hp', rfl⟩ := List.mem_map.mp hx
    exact hv p' (List.mem_of_mem_filter hp')
  obtain ⟨hs0, hs1⟩ := sum_of01 _ hsel01
  rw [List.length_map] at hs1
  have hlenq : (0 : ℚ) < (rows.filter (fun p => p.1 = k)).length := by
    exact_mod_cast hlen
  constructor
  · exact div_nonneg (by exact_mod_cast hs0) hlenq.le
  · rw [div_le_one hlenq]
    exact_mod_cast hs1

theorem to_bool_int_map_01 (c : Cell) :
    to_bool_int_map c = 0 ∨ to_bool_int_map c = 1 := by
  cases c with
  | na => exact Or.inl rfl
  | num q =>
    simp only [to_bool_int_map]
    split_ifs
    · exact Or.inr rfl
    · exact Or.inl rfl
  | str s =>
    simp only [to_bool_int_map]
    split_ifs
    · exact Or.inr rfl
    · exact Or.inl rfl
    · split
      · split_ifs
        · exact Or.inr rfl
        · exact Or.inl rfl
      · exact Or.inl rfl

theorem FRAUD_FLAG_01 (t : Table) : ∀ x ∈ t.FRAUD_FLAG, x = 0 ∨ x = 1 := by
  intro x hx
  unfold Table.FRAUD_FLAG at hx
  cases h : t.is_fraudulent_chargeback with
  | none =>
    rw [h] at hx
    exact Or.inl (List.eq_of_mem_replicate hx)
  | some cs =>
    rw [h] at hx
    unfold to_bool_int at hx
    obtain ⟨c, _, rfl⟩ := List.mem_map.mp hx
    exact to_bool_int_map_01 c

/-- C7: boolean coercion is a total function into `{0, 1}`: absent values
map to 0; a finite numeric cell maps to 1 iff it is nonzero; a string is
stripped, lower-cased and matched against the truthy and falsey token
sets, and otherwise parsed as a float, mapping to 1 iff the parse
succeeds with a Python-nonzero value (unparseable strings map to 0).  As
a Lean function it never raises by construction. -/
theorem bool_coercion_total :
    (∀ c : Cell, to_bool_int_map c = 0 ∨ to_bool_int_map c = 1) ∧
    to_bool_int_map .na = 0 ∧
    (∀ q : ℚ, to_bool_int_map (.num q) = if q ≠ 0 then 1 else 0) ∧
    (∀ s : String,
      (pyLower (pyStrip s) ∈ truthyTokens → to_bool_int_map (.str s) = 1) ∧
      (pyLower (pyStrip s) ∈ falseyTokens → to_bool_int_map (.str s) = 0) ∧
      (pyLower (pyStrip s) ∉ truthyTokens → pyLower (pyStrip s) ∉ falseyTokens →
        ((pyFloatOfString (pyLower (pyStrip s)) = none →
            to_bool_int_map (.str s) = 0) ∧
         (∀ v, pyFloatOfString (pyLower (pyStrip s)) = some v →
            to_bool_int_map (.str s) = if v.isNonzero then 1 else 0)))) := by
  refine ⟨to_bool_int_map_01, rfl, fun q => rfl, fun s => ⟨?_, ?_, ?_⟩⟩
  · intro h
    simp only [to_bool_int_map]
    rw [if_pos h]
  · intro h
    have hnt : pyLower (pyStrip s) ∉ truthyTokens := by
      intro hc
      simp only [falseyTokens, List.mem_cons, List.not_mem_nil, or_false] at h
      rcases h with h | h | h | h | h <;> rw [h] at hc <;> simp [truthyTokens] at hc
    simp only [to_bool_int_map]
    rw [if_neg hnt, if_pos h]
  · intro h1 h2
    constructor
    · intro hpf
      simp only [to_bool_int_map]
      rw [if_neg h1, if_neg h2, hpf]
    · intro v hpf
      simp only [to_bool_int_map]
      rw [if_neg h1, if_neg h2, hpf]

/-- Witness for C7 at concrete inputs: a truthy token, a nonzero numeric
string and an unparseable string. -/
theorem bool_coercion_total_witness :
    to_bool_int_map (.str " YES ") = 1 ∧ to_bool_int_map (.str "2.5") = 1 ∧
      to_bool_int_map (.str "abc") = 0 := by
  refine ⟨(bool_coercion_total.2.2.2 " YES ").1 (by decide), ?_, ?_⟩
  · have h := ((bool_coercion_total.2.2.2 "2.5").2.2 (by decide) (by decide)).2
      (.fin (5 / 2)) (by
        have h25 : pyLower (pyStrip "2.5") = "2.5" := by decide
        rw [h25]
        simp [pyFloatOfString, parseSign, digitsToNat]
        norm_num)
    rw [h]
    norm_num [PyFloat.isNonzero]
  · exact ((bool_coercion_total.2.2.2 "abc").2.2 (by decide) (by decide)).1 (by decide)

/-- C10: the coercion strips surrounding whitespace and lower-cases every
string before matching, so any string whose stripped, lower-cased form is
a recognized truthy token maps to 1 and any whose form is a falsey token
maps to 0 — covering mixed-case and padded variants. -/
theorem bool_coercion_strip_lower (s : String) :
    (pyLower (pyStrip s) ∈ truthyTokens → to_bool_int_map (.str s) = 1) ∧
    (pyLower (pyStrip s) ∈ falseyTokens → to_bool_int_map (.str s) = 0) := by
  constructor
  · intro h
    simp only [to_bool_int_map]
    rw [if_pos h]
  · intro h
    have hnt : pyLower (pyStrip s) ∉ truthyTokens := by
      intro hc
      simp only [falseyTokens, List.mem_cons, List.not_mem_nil, or_false] at h
      rcases h with h | h | h | h | h <;> rw [h] at hc <;> simp [truthyTokens] at hc
    simp only [to_bool_int_map]
    rw [if_neg hnt, if_pos h]

/-- Witness for C10 at the concrete padded and mixed-case variants. -/
theorem bool_coercion_strip_lower_witness :
    to_bool_int_map (.str "TRUE") = 1 ∧ to_bool_int_map (.str " Yes ") = 1 ∧
      to_bool_int_map (.str "FALSE") = 0 ∧ to_bool_int_map (.str " No ") = 0 :=
  ⟨(bool_coercion_strip_lower "TRUE").1 (by decide),
   (bool_coercion_strip_lower " Yes ").1 (by decide),
   (bool_coercion_strip_lower "FALSE").2 (by decide),
   (bool_coercion_strip_lower " No ").2 (by decide)⟩

/-- C4: a zero denominator always yields the rate `0.0`: `safe_div`
returns `0` outright, the overall chargeback and fraud rates are `0` when
the delivery count is `0`, and a daily row whose delivery count is `0`
carries chargeback and fraud rates `0` (the `replace(0, nan)` …
`fillna(0)` path). -/
theorem rate_zero_denominator :
    (∀ n : ℚ, safe_div n 0 = 0) ∧
    (∀ t : Table, t.overall_deliveries = 0 →
      t.overall_cb_rate = 0 ∧ t.overall_fraud_rate = 0) ∧
    (∀ (t : Table) (rows : List DailyRow) (r : DailyRow),
      t.daily = some rows → r ∈ rows → r.deliveries = 0 →
      r.chargeback_rate = 0 ∧ r.fraud_rate = 0) := by
  refine ⟨fun n => by simp [safe_div], fun t h => ?_, fun t rows r hdaily hmem hdel => ?_⟩
  · unfold Table.overall_cb_rate Table.overall_fraud_rate
    rw [h]
    simp [safe_div]
  · unfold Table.daily at hdaily
    cases hdid : t.delivery_id with
    | none => rw [hdid] at hdaily; exact absurd hdaily (by simp)
    | some dids =>
      cases hcost : t.chargeback_cost with
      | none => rw [hdid, hcost] at hdaily; exact absurd hdaily (by simp)
      | some costs =>
        cases hsift : t.sift with
        | none => rw [hdid, hcost, hsift] at hdaily; exact absurd hdaily (by simp)
        | some sifts =>
          rw [hdid, hcost, hsift] at hdaily
          simp only [Option.some.injEq] at hdaily
          subst hdaily
          obtain ⟨d, _, rfl⟩ := List.mem_map.mp hmem
          dsimp only at hdel ⊢
          rw [if_pos hdel, if_pos hdel]
          exact ⟨rfl, rfl⟩

/-- Witness for C4: `safe_div` at denominator `0`, and the concrete table
whose single date group has one chargeback but zero counted deliveries. -/
theorem rate_zero_denominator_witness :
    safe_div 5 0 = 0 ∧
    ∃ r : DailyRow, c4Tbl.daily = some [r] ∧ r.deliveries = 0 ∧
      r.chargeback_rate = 0 ∧ r.fraud_rate = 0 := by
  have hdaily : c4Tbl.daily = some [⟨some 0, 0, 1, 1, 5, none, some 1, 0, 0⟩] := by
    simp [Table.daily, c4Tbl, keysOf, Table.RECEIVED_CHARGEBACK, Table.FRAUD_FLAG,
      to_bool_int, to_bool_int_map, Table.GOV_DOLLARS, meanAll, meanOpt,
      List.filter, List.range_succ]
  have hrates := rate_zero_denominator.2.2 c4Tbl _ _ hdaily
    (List.mem_singleton_self _) rfl
  exact ⟨rate_zero_denominator.1 5, ⟨_, hdaily, rfl, hrates⟩⟩

theorem sum_map_div (l : List ℚ) (c : ℚ) :
    (l.map (fun x => x / c)).sum = l.sum / c := by
  induction l with
  | nil => simp
  | cons a l ih => simp [ih, add_div]

/-- Counterexample for C3: on the two-row table with order values
`[100, missing]`, the program's average order value is `1/2` — the
missing value was zero-filled and included in the mean — while the
present-only mean the claim describes is `1`. -/
theorem gov_mean_cex :
    c3Tbl.avg_gov = some (1 / 2) ∧ specGovMeanPresent c3Tbl = some 1 ∧
      c3Tbl.avg_gov ≠ specGovMeanPresent c3Tbl := by
  have h1 : c3Tbl.avg_gov = some (1 / 2) := by
    simp [Table.avg_gov, c3Tbl, Table.GOV_DOLLARS, meanAll]
  have h2 : specGovMeanPresent c3Tbl = some 1 := by
    simp [specGovMeanPresent, c3Tbl, meanOpt]
  refine ⟨h1, h2, ?_⟩
  rw [h1, h2]
  intro h
  rw [Option.some.injEq] at h
  norm_num at h

/-- C3 amended: a missing or unparseable order value is zero-filled before
the minor-to-major conversion and participates as `0` in all GOV
statistics, including the average order value, which is the zero-filled
sum over the total row count.  Absent values of the risk-score column are
excluded from its mean (skip-`NaN`), and absent chargeback costs
contribute `0` to cost sums. -/
theorem gov_absent_zero_filled :
    (∀ (t : Table) (l : List (Option ℚ)), t.gov = some l → l ≠ [] →
      t.avg_gov = some ((l.map (fun o => o.getD 0)).sum / 100 / l.length)) ∧
    (∀ (t : Table) (l : List (Option ℚ)), t.sift = some l →
      t.avg_sift = meanOpt l) ∧
    (∀ (t : Table) (l : List (Option ℚ)), t.chargeback_cost = some l →
      t.overall_cb_cost = (l.map (fun o => o.getD 0)).sum) := by
  refine ⟨fun t l hg hne => ?_, fun t l hs => ?_, fun t l hc => ?_⟩
  · have hgd : t.GOV_DOLLARS = (l.map (fun o => o.getD 0)).map (fun x => x / 100) := by
      simp only [Table.GOV_DOLLARS, hg, List.map_map]
      rfl
    unfold Table.avg_gov meanAll
    rw [hgd, sum_map_div]
    rw [if_neg (by simp [hne])]
    simp
  · unfold Table.avg_sift
    rw [hs]
  · unfold Table.overall_cb_cost
    rw [hc]

/-- Witness for C3 at the concrete two-row table. -/
theorem gov_absent_zero_filled_witness :
    c3Tbl.avg_gov = some ((100 + 0) / 100 / 2) ∧ c3Tbl.avg_sift = none := by
  have h1 := gov_absent_zero_filled.1 c3Tbl [some 100, none] rfl (by simp)
  have h2 := gov_absent_zero_filled.2.1 c3Tbl [none, none] rfl
  refine ⟨?_, ?_⟩
  · rw [h1]
    norm_num
  · rw [h2]
    simp [meanOpt]

/-- Counterexample for C6: on the empty table the average order value and
average risk score are `NaN` (here `none`), not `0` or `0.0`. -/
theorem empty_table_cex :
    emptyTable.avg_gov = none ∧ emptyTable.avg_sift = none ∧
      emptyTable.avg_gov ≠ some 0 := by
  refine ⟨?_, ?_, ?_⟩
  · simp [Table.avg_gov, emptyTable, Table.GOV_DOLLARS, meanAll]
  · simp [Table.avg_sift, emptyTable, meanOpt]
  · simp [Table.avg_gov, emptyTable, Table.GOV_DOLLARS, meanAll]

/-- C6 amended: on a table with zero records the counting and rate KPIs
are `0`/`0.0` and the cost sum is `0`, but the two mean KPIs (average
order value, average risk score) are `NaN`, rendered as `nan`/`—`; no
aggregate raises (each evaluates, to an empty aggregate), and the
glossary and recommendation catalogs are static lists untouched by the
data. -/
theorem empty_table_kpis :
    emptyTable.overall_deliveries = 0 ∧ emptyTable.overall_cb = 0 ∧
    emptyTable.overall_fraud = 0 ∧ emptyTable.overall_cb_rate = 0 ∧
    emptyTable.overall_fraud_rate = 0 ∧ emptyTable.overall_cb_cost = 0 ∧
    emptyTable.avg_gov = none ∧ emptyTable.avg_sift = none ∧
    emptyTable.daily = some [] ∧ emptyTable.fraud_by_platform = [] ∧
    emptyTable.fraud_by_addr = [] ∧ emptyTable.fraud_by_failed = [] ∧
    emptyTable.fraud_by_gov_bin = [] ∧
    glossaryFields.length = 25 ∧ recCatalogKeys.length = 7 := by
  refine ⟨rfl, rfl, rfl, ?_, ?_, rfl, ?_, rfl, ?_, rfl, rfl, rfl, ?_, rfl, rfl⟩
  · simp [Table.overall_cb_rate, emptyTable, safe_div, Table.overall_cb,
      Table.overall_deliveries, Table.RECEIVED_CHARGEBACK, to_bool_int, keysOf]
  · simp [Table.overall_fraud_rate, emptyTable, safe_div, Table.overall_fraud,
      Table.overall_deliveries, Table.FRAUD_FLAG, to_bool_int, keysOf]
  · simp [Table.avg_gov, emptyTable, Table.GOV_DOLLARS, meanAll]
  · simp [Table.daily, emptyTable, keysOf]
  · simp [Table.fraud_by_gov_bin, emptyTable, Table.GOV_BIN, qcutDeciles,
      Table.GOV_DOLLARS, groupMean, keysOf, Table.FRAUD_FLAG, to_bool_int]

/-- Counterexample for C5: the table missing only the optional
`CHARGEBACK_COST` column makes the daily aggregation raise (`none` here),
so startup does not complete, although the claim promises graceful
degradation for that column. -/
theorem missing_column_cex :
    c5Tbl.daily = none ∧ c5Tbl.chargeback_cost = none ∧
      c5Tbl.platform.isSome = true := by
  refine ⟨?_, rfl, rfl⟩
  simp [Table.daily, c5Tbl]

/-- C5 amended: a missing `PLATFORM`, `CX_UNIQUE_ADDRESSES` or
`FAIL_CHARGES_1D` column degrades gracefully to an empty grouped table,
but the daily aggregation names `DELIVERY_ID`, `CHARGEBACK_COST` and
`SIFT_CREATE_ORDER_PA_SCORE` unconditionally, so it succeeds exactly
when those three columns are present: a missing `CHARGEBACK_COST` or
risk-score column — optional columns in the data model — is fatal at
startup. -/
theorem missing_column_amended :
    (∀ t : Table, t.platform = none → t.fraud_by_platform = []) ∧
    (∀ t : Table, t.cx_unique_addresses = none → t.fraud_by_addr = []) ∧
    (∀ t : Table, t.fail_charges_1d = none → t.fraud_by_failed = []) ∧
    (∀ t : Table, t.daily.isSome = true ↔
      (t.delivery_id.isSome = true ∧ t.chargeback_cost.isSome = true ∧
        t.sift.isSome = true)) := by
  refine ⟨fun t h => ?_, fun t h => ?_, fun t h => ?_, fun t => ?_⟩
  · unfold Table.fraud_by_platform
    rw [h]
  · unfold Table.fraud_by_addr
    rw [h]
  · unfold Table.fraud_by_failed
    rw [h]
  · unfold Table.daily
    cases t.delivery_id <;> cases t.chargeback_cost <;> cases t.sift <;> simp

/-- Witness for C5: a platform-free table yields the empty platform
aggregate, and the cost-free table is refused by the daily aggregation. -/
theorem missing_column_amended_witness :
    c3Tbl.fraud_by_platform = [] ∧ c5Tbl.daily.isSome = false := by
  refine ⟨missing_column_amended.1 c3Tbl rfl, ?_⟩
  have h := missing_column_amended.2.2.2 c5Tbl
  by_contra hc
  rw [Bool.not_eq_false] at hc
  have h2 := h.mp hc
  simp [c5Tbl] at h2

/-- Counterexample for C2: on a series with eight consecutive days the
prior-7-day window holds a single day — fewer than 7 days of history —
yet the comparison returns a result (`(4, 0, 4)`), not `None`. -/
theorem period_comparison_cex :
    last_vs_prior_7d c2Series = some (4, 0, 4) ∧
      (priorWindow c2Series).length = 1 := by
  have hmax : ((c2Series.map Prod.fst).reduceOption).max? = some 7 := by
    simp [c2Series, List.max?]
  have hlast : lastWindow c2Series =
      [(some 1, 1), (some 2, 2), (some 3, 3), (some 4, 4), (some 5, 5),
       (some 6, 6), (some 7, 7)] := by
    unfold lastWindow
    rw [hmax]
    simp [c2Series]
  have hprior : priorWindow c2Series = [(some 0, 0)] := by
    unfold priorWindow
    rw [hmax]
    simp [c2Series]
  refine ⟨?_, by rw [hprior]; rfl⟩
  unfold last_vs_prior_7d
  rw [if_neg (by simp [c2Series]), hlast, hprior]
  rw [if_neg (by simp)]
  norm_num

/-- C2 amended: the comparison returns `None` exactly when the last-7-day
window or the prior-7-day window contains no observation (in particular
on an empty series); otherwise it returns the mean of each window and
their signed difference — even when a window covers fewer than 7 days of
history. -/
theorem period_comparison_amended (s : List (Option ℤ × ℚ)) :
    (last_vs_prior_7d s = none ↔ lastWindow s = [] ∨ priorWindow s = []) ∧
    (∀ a b d, last_vs_prior_7d s = some (a, b, d) →
      a = ((lastWindow s).map Prod.snd).sum / (lastWindow s).length ∧
      b = ((priorWindow s).map Prod.snd).sum / (priorWindow s).length ∧
      d = a - b) := by
  unfold last_vs_prior_7d
  by_cases hs : s.isEmpty = true
  · rw [if_pos hs]
    have hnil : s = [] := by
      cases s with
      | nil => rfl
      | cons a l => simp at hs
    subst hnil
    refine ⟨?_, ?_⟩
    · simp [lastWindow]
    · intro a b d h
      exact absurd h (by simp)
  · rw [if_neg hs]
    by_cases hw : (lastWindow s).length = 0 ∨ (priorWindow s).length = 0
    · rw [if_pos hw]
      refine ⟨?_, ?_⟩
      · simp only [true_iff]
        rcases hw with hw | hw
        · exact Or.inl (List.length_eq_zero.mp hw)
        · exact Or.inr (List.length_eq_zero.mp hw)
      · intro a b d h
        exact absurd h (by simp)
    · rw [if_neg hw]
      push_neg at hw
      refine ⟨?_, ?_⟩
      · constructor
        · intro h
          exact absurd h (by simp)
        · rintro (hc | hc)
          · exact absurd (by simp [hc]) hw.1
          · exact absurd (by simp [hc]) hw.2
      · intro a b d h
        rw [Option.some.injEq] at h
        have h1 := congrArg (fun p : ℚ × ℚ × ℚ => p.1) h
        have h2 := congrArg (fun p : ℚ × ℚ × ℚ => p.2.1) h
        have h3 := congrArg (fun p : ℚ × ℚ × ℚ => p.2.2) h
        dsimp only at h1 h2 h3
        exact ⟨h1.symm, h2.symm, by rw [← h1, ← h2]; exact h3.symm⟩

/-- Witness for C2: the amended theorem applied to the eight-day series. -/
theorem period_comparison_amended_witness :
    last_vs_prior_7d c2Series = some (4, 0, 4) ∧
      (4 : ℚ) = ((lastWindow c2Series).map Prod.snd).sum /
        (lastWindow c2Series).length := by
  have hmax : ((c2Series.map Prod.fst).reduceOption).max? = some 7 := by
    simp [c2Series, List.max?]
  have hlast : lastWindow c2Series =
      [(some 1, 1), (some 2, 2), (some 3, 3), (some 4, 4), (some 5, 5),
       (some 6, 6), (some 7, 7)] := by
    unfold lastWindow
    rw [hmax]
    simp [c2Series]
  have hprior : priorWindow c2Series = [(some 0, 0)] := by
    unfold priorWindow
    rw [hmax]
    simp [c2Series]
  have hsome : last_vs_prior_7d c2Series = some (4, 0, 4) := by
    unfold last_vs_prior_7d
    rw [if_neg (by simp [c2Series]), hlast, hprior]
    rw [if_neg (by simp)]
    norm_num
  exact ⟨hsome, ((period_comparison_amended c2Series).2 4 0 4 hsome).1⟩

theorem optColLen_eq {α : Type} {o : Option (List α)} {n : ℕ}
    (h : optColLen o n = true) : ∀ l, o = some l → l.length = n := by
  intro l hl
  rw [hl] at h
  simpa [optColLen] using h

theorem wfb_gov {t : Table} (h : t.wfb = true) :
    ∀ l, t.gov = some l → l.length = t.n := by
  unfold Table.wfb at h
  simp only [Bool.and_eq_true] at h
  exact optColLen_eq h.1.1.1.1.1.1.1.2

theorem wfb_is_fraud {t : Table} (h : t.wfb = true) :
    ∀ l, t.is_fraudulent_chargeback = some l → l.length = t.n := by
  unfold Table.wfb at h
  simp only [Bool.and_eq_true] at h
  exact optColLen_eq h.2

theorem GOV_DOLLARS_length (t : Table) (h : t.wfb = true) :
    t.GOV_DOLLARS.length = t.n := by
  unfold Table.GOV_DOLLARS
  cases hg : t.gov with
  | none => simp
  | some l => simp [wfb_gov h l hg]

theorem FRAUD_FLAG_length (t : Table) (h : t.wfb = true) :
    t.FRAUD_FLAG.length = t.n := by
  unfold Table.FRAUD_FLAG
  cases hg : t.is_fraudulent_chargeback with
  | none => simp
  | some l => simp [to_bool_int, wfb_is_fraud h l hg]

theorem GOV_BIN_eq_map (t : Table) :
    ∃ f : ℚ → Option (ℚ × ℚ), t.GOV_BIN = t.GOV_DOLLARS.map f := by
  unfold Table.GOV_BIN qcutDeciles
  by_cases hx : t.GOV_DOLLARS.isEmpty = true
  · rw [if_pos hx]
    refine ⟨fun _ => none, ?_⟩
    have hnil : t.GOV_DOLLARS = [] := by
      cases h : t.GOV_DOLLARS with
      | nil => rfl
      | cons a l => rw [h] at hx; simp at hx
    rw [hnil]
    rfl
  · rw [if_neg hx]
    unfold binsToCuts
    rw [if_neg (by simp)]
    exact ⟨_, rfl⟩

theorem GOV_BIN_length (t : Table) : t.GOV_BIN.length = t.GOV_DOLLARS.length := by
  obtain ⟨f, hf⟩ := GOV_BIN_eq_map t
  rw [hf, List.length_map]

theorem gov_bin_zip_fst (t : Table) (h : t.wfb = true) :
    (t.GOV_BIN.zip t.FRAUD_FLAG).map Prod.fst = t.GOV_BIN := by
  apply List.map_fst_zip
  rw [GOV_BIN_length t, GOV_DOLLARS_length t h, FRAUD_FLAG_length t h]

/-- C8: decile bucketing with `duplicates="drop"` never reaches the
error branch; the grouped decile table never has more rows than the
number of distinct order values (hence fewer than 10 rows whenever fewer
than 10 distinct values exist); and on a nonempty constant order-value
column it collapses to exactly one bucket row (every row lands in the
single `nan`-labelled bucket). -/
theorem decile_bucket_collapse :
    (∀ x : List ℚ, ∃ labels, qcutDeciles x true = .ok labels) ∧
    (∀ t : Table, t.wfb = true →
      t.fraud_by_gov_bin.length ≤ (keysOf t.GOV_DOLLARS).length) ∧
    (∀ t : Table, t.wfb = true → t.n ≠ 0 → ∀ c, (∀ v ∈ t.GOV_DOLLARS, v = c) →
      t.fraud_by_gov_bin.length = 1) := by
  refine ⟨fun x => ?_, fun t h => ?_, fun t h hn c hc => ?_⟩
  · unfold qcutDeciles
    by_cases hx : x.isEmpty = true
    · rw [if_pos hx]
      exact ⟨[], rfl⟩
    · rw [if_neg hx]
      unfold binsToCuts
      rw [if_neg (by simp)]
      exact ⟨_, rfl⟩
  · obtain ⟨f, hf⟩ := GOV_BIN_eq_map t
    unfold Table.fraud_by_gov_bin groupMean
    rw [List.length_map, gov_bin_zip_fst t h, hf]
    exact keysOf_length_le_of_map _ f
  · obtain ⟨f, hf⟩ := GOV_BIN_eq_map t
    unfold Table.fraud_by_gov_bin groupMean
    rw [List.length_map, gov_bin_zip_fst t h, hf]
    have hne : t.GOV_DOLLARS.map f ≠ [] := by
      intro hcontra
      have := congrArg List.length hcontra
      rw [List.length_map, GOV_DOLLARS_length t h] at this
      exact hn this
    have hall : ∀ x ∈ t.GOV_DOLLARS.map f, x = f c := by
      intro x hx
      obtain ⟨v, hv, rfl⟩ := List.mem_map.mp hx
      rw [hc v hv]
    rw [keysOf_const _ (f c) hne hall]
    rfl

/-- Witness for C8: the three-row constant-value table collapses to one
bucket row, and its bucketing does not error. -/
theorem decile_bucket_collapse_witness :
    c8Tbl.fraud_by_gov_bin.length = 1 ∧
      ∃ labels, qcutDeciles c8Tbl.GOV_DOLLARS true = .ok labels := by
  have hgd : c8Tbl.GOV_DOLLARS = [5, 5, 5] := by
    simp [Table.GOV_DOLLARS, c8Tbl]
    norm_num
  refine ⟨?_, decile_bucket_collapse.1 c8Tbl.GOV_DOLLARS⟩
  refine decile_bucket_collapse.2.2 c8Tbl (by decide) (by decide) 5 ?_
  rw [hgd]
  intro v hv
  simpa using hv

theorem groupMean_fraud_bounds (t : Table) {κ : Type} [DecidableEq κ]
    (ks : List κ) :
    ∀ q ∈ groupMean (ks.zip t.FRAUD_FLAG),
      (0 ≤ q.2 ∧ q.2 ≤ 1) ∧ q.1 ∈ (ks.zip t.FRAUD_FLAG).map Prod.fst := by
  intro q hq
  refine ?_
  have h := groupMean_mem (ks.zip t.FRAUD_FLAG) ?_ q hq
  · exact ⟨h.1, h.2⟩
  · intro p hp
    obtain ⟨a, b⟩ := p
    exact FRAUD_FLAG_01 t b (List.of_mem_zip hp).2

/-- C9: in each grouped fraud-rate table — by platform, by lifetime
unique-address count, by 1-day failed-charge count, and by decile bucket
— every reported rate lies in `[0, 1]`, and every row's key is the key
of at least one observed row (a group with zero observed rows never
appears). -/
theorem grouped_rate_bounds (t : Table) :
    (∀ q ∈ t.fraud_by_platform, (0 ≤ q.2 ∧ q.2 ≤ 1) ∧
      ∀ ps, t.platform = some ps → q.1 ∈ (ps.zip t.FRAUD_FLAG).map Prod.fst) ∧
    (∀ q ∈ t.fraud_by_addr, (0 ≤ q.2 ∧ q.2 ≤ 1) ∧
      ∀ ls, t.cx_unique_addresses = some ls →
        q.1 ∈ (ls.zip t.FRAUD_FLAG).map Prod.fst) ∧
    (∀ q ∈ t.fraud_by_failed, (0 ≤ q.2 ∧ q.2 ≤ 1) ∧
      ∀ ls, t.fail_charges_1d = some ls →
        q.1 ∈ (ls.zip t.FRAUD_FLAG).map Prod.fst) ∧
    (∀ q ∈ t.fraud_by_gov_bin, (0 ≤ q.2 ∧ q.2 ≤ 1) ∧
      q.1 ∈ (t.GOV_BIN.zip t.FRAUD_FLAG).map Prod.fst) := by
  refine ⟨fun q hq => ?_, fun q hq => ?_, fun q hq => ?_, fun q hq => ?_⟩
  · unfold Table.fraud_by_platform at hq
    cases hp : t.platform with
    | none => rw [hp] at hq; simp at hq
    | some ps =>
      rw [hp] at hq
      have h := groupMean_fraud_bounds t ps q hq
      refine ⟨h.1, fun ps' hps' => ?_⟩
      obtain rfl : ps = ps' := by injection hps'
      exact h.2
  · unfold Table.fraud_by_addr at hq
    cases hp : t.cx_unique_addresses with
    | none => rw [hp] at hq; simp at hq
    | some ls =>
      rw [hp] at hq
      have h := groupMean_fraud_bounds t ls q hq
      refine ⟨h.1, fun ls' hls' => ?_⟩
      obtain rfl : ls = ls' := by injection hls'
      exact h.2
  · unfold Table.fraud_by_failed at hq
    cases hp : t.fail_charges_1d with
    | none => rw [hp] at hq; simp at hq
    | some ls =>
      rw [hp] at hq
      have h := groupMean_fraud_bounds t ls q hq
      refine ⟨h.1, fun ls' hls' => ?_⟩
      obtain rfl : ls = ls' := by injection hls'
      exact h.2
  · unfold Table.fraud_by_gov_bin at hq
    exact groupMean_fraud_bounds t t.GOV_BIN q hq

/-- Witness for C9: the platform table of the two-platform table contains
the `iOS` group with rate `1`, which the theorem bounds within `[0, 1]`. -/
theorem grouped_rate_bounds_witness :
    ∃ q ∈ c9Tbl.fraud_by_platform, q.2 = 1 ∧ 0 ≤ q.2 ∧ q.2 ≤ 1 := by
  have hfp : c9Tbl.fraud_by_platform = [(some "iOS", 1), (some "Web", 0)] := by
    simp [Table.fraud_by_platform, c9Tbl, groupMean, keysOf, Table.FRAUD_FLAG,
      to_bool_int, to_bool_int_map, List.filter]
  have hmem : ((some "iOS" : Option String), (1 : ℚ)) ∈ c9Tbl.fraud_by_platform := by
    rw [hfp]
    simp
  have h := (grouped_rate_bounds c9Tbl).1 _ hmem
  exact ⟨_, hmem, rfl, h.1.1, h.1.2⟩

theorem getCol_eq_of_nodup (tbl : NumTable) (hnd : (tbl.map Prod.fst).Nodup) :
    ∀ c ∈ tbl, getCol tbl c.1 = c.2 := by
  induction tbl with
  | nil => intro c hc; simp at hc
  | cons a rest ih =>
    intro c hc
    simp only [List.map_cons, List.nodup_cons] at hnd
    rcases List.mem_cons.mp hc with rfl | hcr
    · unfold getCol
      rw [if_pos rfl]
    · unfold getCol
      rw [if_neg ?_]
      · exact ih hnd.2 c hcr
      · intro he
        exact hnd.1 (he ▸ List.mem_map_of_mem Prod.fst hcr)

theorem predictor_names (tbl : NumTable) :
    (predictorRows tbl).map Prod.fst =
      ((tbl.map Prod.fst).filter
        (fun c => c ≠ "FRAUD_FLAG" ∧ c ≠ "IS_FRAUDULENT_CHARGEBACK")).take 20 := by
  unfold predictorRows dropLabelRows corrSeries
  rw [List.map_take, List.filter_map, List.map_map, List.filter_map]
  congr 1

/-- Counterexample for C1: on the concrete four-column frame the
correlation series carries `RECEIVED_CHARGEBACK` (the chargeback flag is
not excluded), and the displayed order is `[RECEIVED_CHARGEBACK,
FAIL_CHARGES_1D]` — ascending by signed value — although
`|corr(RECEIVED_CHARGEBACK)| < |corr(FAIL_CHARGES_1D)|`, so a sort by
absolute magnitude descending would list `FAIL_CHARGES_1D` first. -/
theorem corr_ranking_cex :
    corrSeries c1Tbl =
      [("FAIL_CHARGES_1D", (4, 8, 3)), ("RECEIVED_CHARGEBACK", (2, 4, 3)),
       ("IS_FRAUDULENT_CHARGEBACK", (3, 3, 3)), ("FRAUD_FLAG", (3, 3, 3))] ∧
    (predictorDisplay c1Tbl).map Prod.fst =
      ["RECEIVED_CHARGEBACK", "FAIL_CHARGES_1D"] ∧
    "RECEIVED_CHARGEBACK" ∈ (predictorDisplay c1Tbl).map Prod.fst ∧
    absCorrLt (2, 4, 3) (4, 8, 3) = true := by
  have hser : corrSeries c1Tbl =
      [("FAIL_CHARGES_1D", (4, 8, 3)), ("RECEIVED_CHARGEBACK", (2, 4, 3)),
       ("IS_FRAUDULENT_CHARGEBACK", (3, 3, 3)), ("FRAUD_FLAG", (3, 3, 3))] := by
    simp [corrSeries, c1Tbl, getCol, pearsonRep, completePairs, crossSum,
      Function.comp]
    norm_num
  have hdisp : (predictorDisplay c1Tbl).map Prod.fst =
      ["RECEIVED_CHARGEBACK", "FAIL_CHARGES_1D"] := by
    rw [predictorDisplay, predictorRows, hser]
    simp [dropLabelRows, List.insertionSort, List.orderedInsert, entryLe, corrLe,
      corrIsNaN, corrM]
    norm_num
  refine ⟨hser, hdisp, ?_, ?_⟩
  · rw [hdisp]
    simp
  · simp [absCorrLt, corrM]
    norm_num

/-- C1 amended: the ranking computes the Pearson correlation of each
numeric column against the fraud flag and drops exactly the
`FRAUD_FLAG` and `IS_FRAUDULENT_CHARGEBACK` rows — the chargeback flag
is retained — so no self-correlation appears; it keeps the FIRST 20
remaining columns in original column order (`head(20)` runs before any
sort, so these are not the top 20 by magnitude), and displays them
sorted ascending by signed correlation value with `NaN` last (not by
absolute magnitude descending). -/
theorem corr_ranking_amended (tbl : NumTable)
    (hnd : (tbl.map Prod.fst).Nodup) :
    ((predictorRows tbl).map Prod.fst =
      ((tbl.map Prod.fst).filter
        (fun c => c ≠ "FRAUD_FLAG" ∧ c ≠ "IS_FRAUDULENT_CHARGEBACK")).take 20) ∧
    (∀ e ∈ predictorDisplay tbl,
      e.1 ≠ "FRAUD_FLAG" ∧ e.1 ≠ "IS_FRAUDULENT_CHARGEBACK") ∧
    (predictorDisplay tbl).Perm (predictorRows tbl) ∧
    (predictorDisplay tbl).Sorted entryLe ∧
    (∀ e ∈ predictorDisplay tbl,
      e.2 = pearsonRep (getCol tbl e.1) (getCol tbl "FRAUD_FLAG")) := by
  have hrows : ∀ e ∈ predictorRows tbl, e ∈ corrSeries tbl := by
    intro e he
    unfold predictorRows at he
    exact List.mem_of_mem_filter (List.mem_of_mem_take he)
  refine ⟨predictor_names tbl, ?_, List.perm_insertionSort entryLe _,
    List.sorted_insertionSort entryLe _, ?_⟩
  · intro e he
    rw [predictorDisplay, List.mem_insertionSort] at he
    unfold predictorRows at he
    have hf := List.mem_of_mem_take he
    have := (List.mem_filter.mp hf).2
    simpa using this
  · intro e he
    rw [predictorDisplay, List.mem_insertionSort] at he
    have hser := hrows e he
    unfold corrSeries at hser
    obtain ⟨c, hc, rfl⟩ := List.mem_map.mp hser
    have := getCol_eq_of_nodup tbl hnd c hc
    simp [this]

/-- Witness for C1: the amended theorem applied to the concrete frame. -/
theorem corr_ranking_amended_witness :
    ((predictorRows c1Tbl).map Prod.fst =
      ((c1Tbl.map Prod.fst).filter
        (fun c => c ≠ "FRAUD_FLAG" ∧ c ≠ "IS_FRAUDULENT_CHARGEBACK")).take 20) ∧
    (predictorDisplay c1Tbl).Sorted entryLe := by
  have h := corr_ranking_amended c1Tbl (by decide)
  exact ⟨h.1, h.2.2.2.1⟩

end FraudDash
